import Mathlib

/-
Verification of the microcode trace disassembly driver
(`ucode_dump/models/disasm.py`) against its specification.

The driver iterates over addresses `0 .. 0x7BFF`, skipping every address
with `a % 4 == 3`, and for each visited address prints an optional blank
quad separator, an optional label line, and one formatted data line.
The decode capabilities (`uasm.uop_disassemble`, `uasm.process_seqword`)
and the loaded stores are external collaborators; they are modelled as
parameters of the driver.
-/

namespace UcodeDump

/-- Little-endian base-16 digit list of `n`, computed with explicit fuel
so that it reduces in the kernel; with fuel at least `n` it agrees with
`Nat.digits 16 n`. -/
def hexDigitsFuel : Nat → Nat → List Nat
  | 0, _ => []
  | fuel + 1, n => if n = 0 then [] else n % 16 :: hexDigitsFuel fuel (n / 16)

/-- Little-endian base-16 digit list of `n` (empty for zero). -/
def hexNatDigits (n : Nat) : List Nat := hexDigitsFuel n n

/-- Big-endian lowercase hexadecimal digit list of a natural number,
`['0']` for zero — the digits printed by Python's `format(n, 'x')`. -/
def hexRepr (n : Nat) : List Char :=
  if n = 0 then ['0'] else ((hexNatDigits n).map Nat.digitChar).reverse

/-- Python's `format(n, '0wx')`: the minimal lowercase hexadecimal digits
of `n`, left-padded with zeros to a minimum (not enforced) width `w`. -/
def pyHexPad (w n : Nat) : String :=
  ⟨List.replicate (w - (hexRepr n).length) '0' ++ hexRepr n⟩

/-- Python's `str.strip()`: remove leading and trailing whitespace. -/
def pyStrip (s : String) : String :=
  ⟨((s.data.dropWhile Char.isWhitespace).reverse.dropWhile Char.isWhitespace).reverse⟩

/-- The external decode capability of the `uasm` module, as consumed by the
driver: `uop_disassemble(uop, uaddr)` and
`process_seqword(uaddr, uop, seqword, before)`. -/
structure Uasm where
  uop_disassemble : Nat → Nat → String
  process_seqword : Nat → Nat → Nat → Bool → String

/-- The three stores loaded at startup: `ucode` (Word Store, from
`ms_array0.txt`), `seqwords` (Group Control Store, from `ms_array1.txt`)
and `labels` (Label Table, from `labels.csv`). -/
structure Stores where
  ucode : Nat → Nat
  seqwords : Nat → Nat
  labels : Nat → Option String

/-- The address sequence of the driver:
`filter(lambda x: x % 4 != 3, range(0x7c00))`. -/
def traceList : List Nat :=
  (List.range 0x7c00).filter (fun x => x % 4 != 3)

/-- The control word the driver looks up for address `uaddr`:
`seqwords[uaddr // 4 * 4]`. -/
def usedSeqword (st : Stores) (uaddr : Nat) : Nat :=
  st.seqwords (uaddr / 4 * 4)

/-- The data line printed for a visited address, with the control word as an
explicit argument:
`f'U{uaddr:04x}: {uop:012x} {disasm_seqw_before}{disasm_uop} {disasm_seqw_after}'`
where the before-annotation gets one trailing space when nonempty. -/
def dataLineCtrl (u : Uasm) (st : Stores) (uaddr seqword : Nat) : String :=
  let uop := st.ucode uaddr
  let disasm_uop := pyStrip (u.uop_disassemble uop uaddr)
  let disasm_seqw_before := pyStrip (u.process_seqword uaddr uop seqword true)
  let disasm_seqw_after := pyStrip (u.process_seqword uaddr uop seqword false)
  let disasm_seqw_before :=
    if disasm_seqw_before != "" then disasm_seqw_before ++ " " else disasm_seqw_before
  "U" ++ pyHexPad 4 uaddr ++ ": " ++ pyHexPad 12 uop ++ " "
    ++ disasm_seqw_before ++ disasm_uop ++ " " ++ disasm_seqw_after

/-- The data line printed for a visited address, using the control word of
the address's quad as the driver looks it up. -/
def dataLine (u : Uasm) (st : Stores) (uaddr : Nat) : String :=
  dataLineCtrl u st uaddr (usedSeqword st uaddr)

/-- All lines the driver prints while processing one visited address: the
blank quad separator when `uaddr % 4 == 0 and uaddr > 0`, the label line
`f'{labels[uaddr]}:'` when the address is labelled, then the data line. -/
def emitAddr (u : Uasm) (st : Stores) (uaddr : Nat) : List String :=
  (if uaddr % 4 == 0 && uaddr > 0 then [""] else [])
    ++ (match st.labels uaddr with
        | some l => [l ++ ":"]
        | none => [])
    ++ [dataLine u st uaddr]

/-- The full sequence of lines printed by `main` after the stores are
loaded. -/
def mainOutput (u : Uasm) (st : Stores) : List String :=
  traceList.flatMap (emitAddr u st)

/-- One loop iteration including the `assert(uaddr < 0x7c00)`: `none`
models the `AssertionError` abort. -/
def emitAddrChecked (u : Uasm) (st : Stores) (uaddr : Nat) : Option (List String) :=
  if uaddr < 0x7c00 then some (emitAddr u st uaddr) else none

/-- The full driver run with the per-iteration assertion: `none` when any
iteration trips the assert. -/
def mainOutputChecked (u : Uasm) (st : Stores) : Option (List String) :=
  (traceList.mapM (emitAddrChecked u st)).map List.flatten

/-- Observable effects of `main` in statement order: the assignment to the
process-wide global `uasm.cpuid_`, the three loader calls (paths relative
to the dump directory), and the decode-capability invocations of the
trace loop. -/
inductive Event where
  | assignCpuid (v : String)
  | loadArray (path : List String)
  | loadLabels (path : List String)
  | decodeUop (uop uaddr : Nat)
  | decodeSeqword (uaddr uop seqword : Nat) (before : Bool)
  deriving DecidableEq

/-- Check for the global-assignment event. -/
def Event.isAssign : Event → Bool
  | .assignCpuid _ => true
  | _ => false

/-- The decode-capability invocations of one visited address, in source
order: `uop_disassemble`, then `process_seqword(..., True)`, then
`process_seqword(..., False)`. -/
def addrEvents (st : Stores) (uaddr : Nat) : List Event :=
  let uop := st.ucode uaddr
  let seqword := usedSeqword st uaddr
  [.decodeUop uop uaddr,
   .decodeSeqword uaddr uop seqword true,
   .decodeSeqword uaddr uop seqword false]

/-- The effect trace of `main` for a CLI-supplied `cpuid`: first
`uasm.cpuid_ = cpuid`, then the three loads, then the trace loop. -/
def mainEvents (cpuid : String) (st : Stores) : List Event :=
  Event.assignCpuid cpuid
    :: Event.loadArray [cpuid, "ms_array0.txt"]
    :: Event.loadArray [cpuid, "ms_array1.txt"]
    :: Event.loadLabels ["labels.csv"]
    :: traceList.flatMap (addrEvents st)

/-- Data line as §4.5(h) of the spec words it: `"U"`, the address as 4
lowercase zero-padded hex digits, `": "`, the word as 12 lowercase
zero-padded hex digits, a space, the (space-suffixed when nonempty)
trimmed before-annotation, the trimmed mnemonic, a space, the trimmed
after-annotation — with the control word looked up at
`base(a) = a - (a mod 4)`. -/
def specDataLine (u : Uasm) (st : Stores) (a : Nat) : String :=
  let w := st.ucode a
  let ctrl := st.seqwords (a - a % 4)
  let before0 := pyStrip (u.process_seqword a w ctrl true)
  let before := if before0 = "" then before0 else before0 ++ " "
  let mnemonic := pyStrip (u.uop_disassemble w a)
  let after := pyStrip (u.process_seqword a w ctrl false)
  "U" ++ pyHexPad 4 a ++ ": " ++ pyHexPad 12 w ++ " "
    ++ before ++ mnemonic ++ " " ++ after

/-- Membership in the driver's address sequence. -/
theorem mem_traceList {a : Nat} : a ∈ traceList ↔ a < 0x7c00 ∧ a % 4 ≠ 3 := by
  simp [traceList, List.mem_filter, List.mem_range]

/-- Helper: the fuel-based hex digits agree with `Nat.digits 16`. -/
theorem hexDigitsFuel_eq_digits :
    ∀ (fuel n : Nat), n ≤ fuel → hexDigitsFuel fuel n = Nat.digits 16 n := by
  intro fuel
  induction fuel with
  | zero =>
    intro n hn
    interval_cases n
    simp [hexDigitsFuel]
  | succ fuel ih =>
    intro n hn
    rcases Nat.eq_zero_or_pos n with h0 | hpos
    · simp [hexDigitsFuel, h0]
    · rw [hexDigitsFuel, if_neg (Nat.pos_iff_ne_zero.mp hpos),
        Nat.digits_def' (by norm_num : (1:Nat) < 16) hpos, ih]
      have := Nat.div_lt_self hpos (by norm_num : (1:Nat) < 16)
      omega

/-- Helper: the big-endian hex digits agree with `Nat.digits 16`. -/
theorem hexNatDigits_eq_digits (n : Nat) : hexNatDigits n = Nat.digits 16 n :=
  hexDigitsFuel_eq_digits n n le_rfl

/-- Helper: a data line is never the empty string (it starts with `U`). -/
theorem dataLineCtrl_ne_empty (u : Uasm) (st : Stores) (uaddr seqword : Nat) :
    dataLineCtrl u st uaddr seqword ≠ "" := by
  intro h
  have h2 := congrArg String.length h
  simp only [dataLineCtrl] at h2
  simp [String.length_append] at h2
  exact absurd h2.1.1.1.1.1.1.1.1 (by decide)

/-- Helper: a label line is never the empty string (it ends with `:`). -/
theorem labelLine_ne_empty (l : String) : l ++ ":" ≠ "" := by
  intro h
  have h2 := congrArg String.length h
  simp [String.length_append] at h2
  exact absurd h2.2 (by decide)

/-- Helper: the lines emitted for one address, with the separator
condition as a proposition. -/
theorem emitAddr_eq (u : Uasm) (st : Stores) (a : Nat) :
    emitAddr u st a =
      (if a % 4 = 0 ∧ 0 < a then [""] else [])
        ++ (match st.labels a with
            | some l => [l ++ ":"]
            | none => [])
        ++ [dataLine u st a] := by
  rw [emitAddr]
  congr 1
  by_cases hc : a % 4 = 0 ∧ 0 < a
  · simp [hc]
  · simp [hc]

/-- C2: the control word the driver passes to both group-control decode
calls of a visited address is the Group Control Store entry at the quad
base `a - (a mod 4)`, hence every address of a quad uses the same control
word as the quad's base address. -/
theorem quad_control_word (u : Uasm) (st : Stores) (a : Nat) :
    dataLine u st a = dataLineCtrl u st a (st.seqwords (a - a % 4)) ∧
    usedSeqword st a = usedSeqword st (a - a % 4) := by
  have hbase : a / 4 * 4 = a - a % 4 := by omega
  constructor
  · rw [dataLine, usedSeqword, hbase]
  · unfold usedSeqword
    congr 1
    omega

/-- C3: the emitted data line equals the exact concatenation the spec
prescribes in §4.5(h). -/
theorem dataLine_spec (u : Uasm) (st : Stores) (a : Nat) :
    dataLine u st a = specDataLine u st a := by
  have hbase : a / 4 * 4 = a - a % 4 := by omega
  rw [dataLine, dataLineCtrl, usedSeqword, hbase, specDataLine]
  rcases eq_or_ne (pyStrip (u.process_seqword a (st.ucode a) (st.seqwords (a - a % 4)) true)) ""
    with h | h
  · simp [h]
  · simp [h]

/-- C1: an address `a < 0x7C00` with `a % 4 == 3` is never visited by the
trace loop, and every output line comes from some visited address other
than `a`. -/
theorem skipped_mod3 (a : Nat) (ha : a < 0x7c00) (h3 : a % 4 = 3) :
    a ∉ traceList ∧
      ∀ (u : Uasm) (st : Stores), ∀ line ∈ mainOutput u st,
        ∃ b ∈ traceList, b ≠ a ∧ line ∈ emitAddr u st b := by
  have hnot : a ∉ traceList := by simp [mem_traceList, h3]
  refine ⟨hnot, ?_⟩
  intro u st line hl
  rw [mainOutput, List.mem_flatMap] at hl
  obtain ⟨b, hb, hline⟩ := hl
  exact ⟨b, hb, fun hba => hnot (hba ▸ hb), hline⟩

/-- Witness for C1 at the concrete skipped address 3. -/
theorem skipped_mod3_witness :
    3 ∉ traceList ∧
      ∀ (u : Uasm) (st : Stores), ∀ line ∈ mainOutput u st,
        ∃ b ∈ traceList, b ≠ 3 ∧ line ∈ emitAddr u st b :=
  skipped_mod3 3 (by decide) (by decide)

/-- C4: among the lines emitted for an address, the blank separator
appears exactly once when `a % 4 == 0 and a > 0` — and then first, before
any label or data line — and never otherwise. -/
theorem quad_separator (u : Uasm) (st : Stores) (a : Nat) :
    (emitAddr u st a).count "" = (if a % 4 = 0 ∧ 0 < a then 1 else 0) ∧
    (a % 4 = 0 ∧ 0 < a → (emitAddr u st a).head? = some "") ∧
    (¬(a % 4 = 0 ∧ 0 < a) → "" ∉ emitAddr u st a) := by
  have hdata : ¬("" = dataLine u st a) := fun h => dataLineCtrl_ne_empty u st a _ h.symm
  rw [emitAddr_eq]
  by_cases hc : a % 4 = 0 ∧ 0 < a
  · cases hl : st.labels a with
    | none => simp [hc, List.count_cons, hdata]
    | some l =>
      have hlab : ¬("" = l ++ ":") := fun h => labelLine_ne_empty l h.symm
      simp [hc, List.count_cons, hdata, hlab]
  · cases hl : st.labels a with
    | none => simp [hc, List.count_cons, hdata]
    | some l =>
      have hlab : ¬("" = l ++ ":") := fun h => labelLine_ne_empty l h.symm
      simp [hc, List.count_cons, hdata, hlab]

/-- Witness for C4 at address 4 (a quad base) and address 1 (not a quad
base) with concrete stores and decoders. -/
theorem quad_separator_witness :
    ((emitAddr ⟨fun _ _ => "NOP", fun _ _ _ _ => ""⟩
        ⟨fun _ => 0, fun _ => 0, fun _ => none⟩ 4).count ""
       = (if 4 % 4 = 0 ∧ 0 < 4 then 1 else 0)) ∧
    ((emitAddr ⟨fun _ _ => "NOP", fun _ _ _ _ => ""⟩
        ⟨fun _ => 0, fun _ => 0, fun _ => none⟩ 4).head? = some "") ∧
    "" ∉ emitAddr ⟨fun _ _ => "NOP", fun _ _ _ _ => ""⟩
        ⟨fun _ => 0, fun _ => 0, fun _ => none⟩ 1 :=
  ⟨(quad_separator ⟨fun _ _ => "NOP", fun _ _ _ _ => ""⟩
      ⟨fun _ => 0, fun _ => 0, fun _ => none⟩ 4).1,
   (quad_separator ⟨fun _ _ => "NOP", fun _ _ _ _ => ""⟩
      ⟨fun _ => 0, fun _ => 0, fun _ => none⟩ 4).2.1 (by norm_num),
   (quad_separator ⟨fun _ _ => "NOP", fun _ _ _ _ => ""⟩
      ⟨fun _ => 0, fun _ => 0, fun _ => none⟩ 1).2.2 (by norm_num)⟩

/-- C5: the before-annotation on a data line is the trimmed before-phase
decode result; when it is empty the mnemonic directly follows the single
space after the word field, and when it is nonempty exactly one separator
space stands between it and the mnemonic. -/
theorem before_sep_rule (u : Uasm) (st : Stores) (a : Nat) :
    (pyStrip (u.process_seqword a (st.ucode a) (usedSeqword st a) true) = "" →
      dataLine u st a =
        "U" ++ pyHexPad 4 a ++ ": " ++ pyHexPad 12 (st.ucode a) ++ " "
          ++ pyStrip (u.uop_disassemble (st.ucode a) a) ++ " "
          ++ pyStrip (u.process_seqword a (st.ucode a) (usedSeqword st a) false)) ∧
    (pyStrip (u.process_seqword a (st.ucode a) (usedSeqword st a) true) ≠ "" →
      dataLine u st a =
        "U" ++ pyHexPad 4 a ++ ": " ++ pyHexPad 12 (st.ucode a) ++ " "
          ++ (pyStrip (u.process_seqword a (st.ucode a) (usedSeqword st a) true) ++ " ")
          ++ pyStrip (u.uop_disassemble (st.ucode a) a) ++ " "
          ++ pyStrip (u.process_seqword a (st.ucode a) (usedSeqword st a) false)) := by
  constructor
  · intro h
    simp [dataLine, dataLineCtrl, h]
  · intro h
    simp [dataLine, dataLineCtrl, h, String.append_assoc]

/-- Witness for C5 at address 1 with a decoder whose before-phase
annotation is `SEQ` after trimming. -/
theorem before_sep_rule_witness :
    pyStrip ((Uasm.mk (fun _ _ => "MOV") (fun _ _ _ ph => if ph then " SEQ " else "")).process_seqword
        1 ((Stores.mk (fun _ => 5) (fun _ => 7) (fun _ => none)).ucode 1)
        (usedSeqword (Stores.mk (fun _ => 5) (fun _ => 7) (fun _ => none)) 1) true) ≠ "" ∧
      dataLine (Uasm.mk (fun _ _ => "MOV") (fun _ _ _ ph => if ph then " SEQ " else ""))
          (Stores.mk (fun _ => 5) (fun _ => 7) (fun _ => none)) 1 =
        "U0001: 000000000005 SEQ MOV " := by
  refine ⟨by decide, ?_⟩
  have h := (before_sep_rule
    (Uasm.mk (fun _ _ => "MOV") (fun _ _ _ ph => if ph then " SEQ " else ""))
    (Stores.mk (fun _ => 5) (fun _ => 7) (fun _ => none)) 1).2 (by decide)
  rw [h]
  rfl

/-- C6: a label line (name followed by a colon) stands immediately before
the data line of an address exactly when that address has a Label Table
entry; the output is assembled only from visited addresses, and addresses
with `a % 4 == 3` are never visited, so their labels are never printed. -/
theorem label_lines (u : Uasm) (st : Stores) :
    (∀ a l, st.labels a = some l →
      emitAddr u st a =
        (if a % 4 = 0 ∧ 0 < a then [""] else []) ++ [l ++ ":", dataLine u st a]) ∧
    (∀ a, st.labels a = none →
      emitAddr u st a =
        (if a % 4 = 0 ∧ 0 < a then [""] else []) ++ [dataLine u st a]) ∧
    (∀ a, a % 4 = 3 → a ∉ traceList) ∧
    mainOutput u st = traceList.flatMap (emitAddr u st) := by
  refine ⟨?_, ?_, ?_, rfl⟩
  · intro a l hl
    rw [emitAddr_eq, hl]
    simp
  · intro a hl
    rw [emitAddr_eq, hl]
    simp
  · intro a h3
    simp [mem_traceList, h3]

/-- Witness for C6: a concrete store labelling address 4 with `L4`, no
label at address 5, and the never-visited address 7. -/
theorem label_lines_witness :
    (emitAddr ⟨fun _ _ => "OP", fun _ _ _ _ => ""⟩
        (Stores.mk (fun _ => 0) (fun _ => 0)
          (fun x => if x = 4 then some "L4" else none)) 4 =
      (if 4 % 4 = 0 ∧ 0 < 4 then [""] else [])
        ++ ["L4" ++ ":", dataLine ⟨fun _ _ => "OP", fun _ _ _ _ => ""⟩
              (Stores.mk (fun _ => 0) (fun _ => 0)
                (fun x => if x = 4 then some "L4" else none)) 4]) ∧
    (emitAddr ⟨fun _ _ => "OP", fun _ _ _ _ => ""⟩
        (Stores.mk (fun _ => 0) (fun _ => 0)
          (fun x => if x = 4 then some "L4" else none)) 5 =
      (if 5 % 4 = 0 ∧ 0 < 5 then [""] else [])
        ++ [dataLine ⟨fun _ _ => "OP", fun _ _ _ _ => ""⟩
              (Stores.mk (fun _ => 0) (fun _ => 0)
                (fun x => if x = 4 then some "L4" else none)) 5]) ∧
    7 ∉ traceList :=
  ⟨(label_lines ⟨fun _ _ => "OP", fun _ _ _ _ => ""⟩
      (Stores.mk (fun _ => 0) (fun _ => 0)
        (fun x => if x = 4 then some "L4" else none))).1 4 "L4" rfl,
   (label_lines ⟨fun _ _ => "OP", fun _ _ _ _ => ""⟩
      (Stores.mk (fun _ => 0) (fun _ => 0)
        (fun x => if x = 4 then some "L4" else none))).2.1 5 rfl,
   (label_lines ⟨fun _ _ => "OP", fun _ _ _ _ => ""⟩
      (Stores.mk (fun _ => 0) (fun _ => 0)
        (fun x => if x = 4 then some "L4" else none))).2.2.1 7 (by norm_num)⟩

/-- Helper: mapping the checked iteration over in-range addresses never
aborts. -/
theorem mapM_emitAddrChecked (u : Uasm) (st : Stores) :
    ∀ (l : List Nat), (∀ a ∈ l, a < 0x7c00) →
      l.mapM (emitAddrChecked u st) = some (l.map (emitAddr u st)) := by
  intro l
  induction l with
  | nil => intro _; rfl
  | cons x xs ih =>
    intro h
    have hx : x < 0x7c00 := h x (List.mem_cons_self x xs)
    rw [List.mapM_cons, ih (fun a ha => h a (List.mem_cons_of_mem x ha))]
    simp [emitAddrChecked, hx]

/-- C7: the per-iteration assertion `uaddr < 0x7c00` never fires — the
checked run produces the unchecked output instead of aborting. -/
theorem assert_in_range (u : Uasm) (st : Stores) :
    mainOutputChecked u st = some (mainOutput u st) := by
  rw [mainOutputChecked,
    mapM_emitAddrChecked u st traceList (fun a ha => (mem_traceList.mp ha).1)]
  rw [mainOutput, List.flatMap_def]
  rfl

/-- C8: the trace iteration starts at address 0, proceeds in strictly
ascending order, ends at address `0x7BFE` (address `0x7BFF` is skipped
because `0x7BFF mod 4 == 3`), and never visits `0x7C00`. -/
theorem trace_iteration :
    traceList.head? = some 0 ∧
    List.Pairwise (· < ·) traceList ∧
    traceList.getLast? = some 0x7bfe ∧
    0x7bff ∉ traceList ∧
    0x7c00 ∉ traceList := by
  refine ⟨?_, ?_, ?_, ?_, ?_⟩
  · have e : (0x7c00 : Nat) = 0x7bff + 1 := by norm_num
    unfold traceList
    rw [e, List.range_succ_eq_map,
      @List.filter_cons_of_pos _ (fun x => x % 4 != 3) 0
        (List.map Nat.succ (List.range 0x7bff)) (by decide)]
    rfl
  · exact (List.pairwise_lt_range _).filter _
  · have e : (0x7c00 : Nat) = 0x7bfe + 1 + 1 := by norm_num
    unfold traceList
    rw [e, List.range_succ, List.filter_append, List.range_succ, List.filter_append]
    have e1 : List.filter (fun x => x % 4 != 3) [0x7bfe + 1] = [] := rfl
    have e2 : List.filter (fun x => x % 4 != 3) [(0x7bfe : Nat)] = [0x7bfe] := rfl
    rw [e1, e2, List.append_nil, List.getLast?_concat]
  · rw [mem_traceList]
    decide
  · rw [mem_traceList]
    decide

/-- Helper: base-16 digit count is at most `k` exactly for numbers below
`16 ^ k`. -/
theorem digits16_len_le_iff (n k : Nat) :
    (Nat.digits 16 n).length ≤ k ↔ n < 16 ^ k := by
  constructor
  · intro h
    exact lt_of_lt_of_le (Nat.lt_base_pow_length_digits (by norm_num))
      (Nat.pow_le_pow_right (by norm_num) h)
  · intro h
    by_contra hk
    push_neg at hk
    have hn : n ≠ 0 := by
      rintro rfl
      simp at hk
    have h2 := Nat.base_pow_length_digits_le 16 n (by norm_num) hn
    have h3 : 16 ^ (k + 1) ≤ 16 * n :=
      le_trans (Nat.pow_le_pow_right (by norm_num) hk) h2
    rw [pow_succ, Nat.mul_comm 16 n] at h3
    have h4 : 16 ^ k ≤ n := Nat.le_of_mul_le_mul_right h3 (by norm_num)
    omega

/-- Helper: length of the padded hex field. -/
theorem pyHexPad_length (w n : Nat) :
    (pyHexPad w n).length = max w (hexRepr n).length := by
  have h : (pyHexPad w n).length = (w - (hexRepr n).length) + (hexRepr n).length := by
    simp [pyHexPad, String.length]
  omega

/-- Helper: length of the minimal hex digit list. -/
theorem hexRepr_length (n : Nat) :
    (hexRepr n).length = if n = 0 then 1 else (Nat.digits 16 n).length := by
  rcases eq_or_ne n 0 with rfl | hn
  · rfl
  · simp [hexRepr, hn, hexNatDigits_eq_digits]

/-- C9: the 12-digit word field is a minimum width, not an enforced one:
below `2^48` it is exactly 12 lowercase zero-padded hex digits, at or
above `2^48` the unpadded full digit string (more than 12 digits) is
printed untruncated, and the data line embeds the field either way. -/
theorem word_field_width (w : Nat) :
    ((pyHexPad 12 w).length = 12 ↔ w < 2 ^ 48) ∧
    (2 ^ 48 ≤ w → pyHexPad 12 w = ⟨hexRepr w⟩ ∧ 12 < (pyHexPad 12 w).length) ∧
    ∀ (u : Uasm) (st : Stores) (a : Nat), st.ucode a = w →
      ∃ rest : String,
        dataLine u st a = ("U" ++ pyHexPad 4 a ++ ": " ++ pyHexPad 12 w) ++ rest := by
  have h16 : (16 : Nat) ^ 12 = 2 ^ 48 := by norm_num
  have hlen := hexRepr_length w
  have hpad := pyHexPad_length 12 w
  refine ⟨?_, ?_, ?_⟩
  · constructor
    · intro h
      rcases eq_or_ne w 0 with rfl | hn
      · norm_num
      · rw [hlen, if_neg hn] at hpad
        have : (Nat.digits 16 w).length ≤ 12 := by omega
        have := (digits16_len_le_iff w 12).mp this
        omega
    · intro h
      rcases eq_or_ne w 0 with rfl | hn
      · simp at hlen
        omega
      · rw [hlen, if_neg hn] at hpad
        have : (Nat.digits 16 w).length ≤ 12 := (digits16_len_le_iff w 12).mpr (by omega)
        omega
  · intro h
    have hn : w ≠ 0 := by
      intro h0
      rw [h0] at h
      norm_num at h
    rw [hlen, if_neg hn] at hpad
    have hgt : 12 < (Nat.digits 16 w).length := by
      by_contra hle
      push_neg at hle
      have := (digits16_len_le_iff w 12).mp hle
      omega
    constructor
    · rw [pyHexPad]
      have : 12 - (hexRepr w).length = 0 := by
        rw [hlen, if_neg hn]
        omega
      rw [this]
      rfl
    · omega
  · intro u st a hw
    refine ⟨" "
        ++ (if pyStrip (u.process_seqword a w (usedSeqword st a) true) != "" then
              pyStrip (u.process_seqword a w (usedSeqword st a) true) ++ " "
            else pyStrip (u.process_seqword a w (usedSeqword st a) true))
        ++ pyStrip (u.uop_disassemble w a) ++ " "
        ++ pyStrip (u.process_seqword a w (usedSeqword st a) false), ?_⟩
    simp [dataLine, dataLineCtrl, hw, String.append_assoc]

/-- Witness for C9 at the boundary word `2^48` with a concrete store. -/
theorem word_field_width_witness :
    (pyHexPad 12 (2 ^ 48) = ⟨hexRepr (2 ^ 48)⟩ ∧ 12 < (pyHexPad 12 (2 ^ 48)).length) ∧
    ∃ rest : String,
      dataLine ⟨fun _ _ => "OP", fun _ _ _ _ => ""⟩
          ⟨fun _ => 2 ^ 48, fun _ => 0, fun _ => none⟩ 0 =
        ("U" ++ pyHexPad 4 0 ++ ": " ++ pyHexPad 12 (2 ^ 48)) ++ rest :=
  ⟨(word_field_width (2 ^ 48)).2.1 le_rfl,
   (word_field_width (2 ^ 48)).2.2 ⟨fun _ _ => "OP", fun _ _ _ _ => ""⟩
     ⟨fun _ => 2 ^ 48, fun _ => 0, fun _ => none⟩ 0 rfl⟩

/-- C10: the effect trace of `main` assigns the CLI-supplied value to the
global `uasm.cpuid_` as its very first effect — before any load and any
decode invocation — and contains no other assignment to it. -/
theorem cpuid_global (cpuid : String) (st : Stores) :
    (mainEvents cpuid st).head? = some (Event.assignCpuid cpuid) ∧
    ∀ e ∈ (mainEvents cpuid st).tail, e.isAssign = false := by
  refine ⟨rfl, ?_⟩
  intro e he
  simp only [mainEvents, List.tail_cons] at he
  simp [List.mem_cons, List.mem_flatMap, addrEvents] at he
  rcases he with rfl | rfl | rfl | ⟨a, _, rfl | rfl | rfl⟩ <;> rfl

/-- Witness for C10 at the default cpuid and a concrete store. -/
theorem cpuid_global_witness :
    (mainEvents "0x000506CA" ⟨fun _ => 0, fun _ => 0, fun _ => none⟩).head?
        = some (Event.assignCpuid "0x000506CA") ∧
    ∀ e ∈ (mainEvents "0x000506CA" ⟨fun _ => 0, fun _ => 0, fun _ => none⟩).tail,
      e.isAssign = false :=
  cpuid_global "0x000506CA" ⟨fun _ => 0, fun _ => 0, fun _ => none⟩

end UcodeDump
